import Mathlib

/-!
Verification of the webview-to-IDE messaging layer (`ide_webview.ts`-style module):
the transport selector `_postToIde`, the retrying dispatcher `postToIde`, the
reverse-channel responder `respondToIde`, the unary correlation handler of
`ideRequest`, and the polling stream adapter `ideStreamRequest`.

Modelling conventions (shallow embedding):
- JavaScript strings are `List Char`; string concatenation is `++`,
  `s.slice(i)` is `List.drop i`, `s.length` is `List.length`.
- The untyped `data` payload of an envelope is `JVal`: the handler only ever
  inspects the truthiness of the `done` field and reads the `content` field,
  so `JVal` records exactly those observations (plus a `value` field and a
  bare-string form so that payloads can be told apart).
- The single-threaded event loop is modelled by a schedule: a list of event
  batches, one batch delivered while the generator is suspended at each
  `await setTimeout(..., 50)` of the polling loop.
- A thrown JavaScript exception is `Except.error` with the thrown message.
-/

/-- Fields of a JavaScript object payload that this layer reads: `done`
(absent encodes to `false`, matching JS truthiness of `undefined`),
`content`, and `value` (absent encodes to `none`). -/
structure JObj where
  done : Bool
  content : Option (List Char)
  value : Option (List Char)
deriving Repr, DecidableEq

/-- An untyped payload value: `undefined`, a bare string, or an object. -/
inductive JVal where
  | undef
  | str (s : List Char)
  | obj (o : JObj)
deriving Repr, DecidableEq

/-- Truthiness of `payload.done` as the stream handler tests it:
`undefined.done`-style accesses on non-objects are falsy. -/
def JVal.doneField : JVal → Bool
  | JVal.obj o => o.done
  | _ => false

/-- The characters appended by `buffer += payload.content`: a missing
`content` field stringifies as `"undefined"` under JS `+`. -/
def JVal.contentChars : JVal → List Char
  | JVal.obj o => o.content.getD "undefined".toList
  | _ => "undefined".toList

/-- The wire unit (`Message` from `core/util/messenger`):
`{messageId, messageType, data}`. -/
structure Message where
  messageId : String
  messageType : String
  data : JVal
deriving Repr, DecidableEq

/-- The ambient hosting environment inspected by `_postToIde` on every call:
whether the `vscode` handle is defined, the `localStorage.getItem("ide")`
value (`none` models `null`), and whether `window.postIntellijMessage`
is installed. -/
structure Env where
  vscodeDefined : Bool
  ideStorage : Option String
  postIntellijMessageDefined : Bool
deriving Repr, DecidableEq

/-- Observable effect of one successful `_postToIde` call: an envelope posted
through `vscode.postMessage`, a call into the IntelliJ bridge, or the silent
logged drop of the branch where `vscode` is undefined and the environment
marker is not `"jetbrains"`. -/
inductive SendOutcome where
  | sentVscode (m : Message)
  | sentIntellij (messageType : String) (data : JVal) (messageId : String)
  | droppedNoVscode
deriving Repr, DecidableEq

/-- The transport selector `_postToIde(messageType, data, messageId?)`.
`fresh` models the `uuidv4()` minted when no `messageId` is supplied.
`Except.error` is the one `throw` in the source (IntelliJ marker set but
bridge function absent); the no-`vscode`, non-JetBrains branch logs and
returns normally. -/
def _postToIde (env : Env) (messageType : String) (data : JVal)
    (messageId : Option String) (fresh : String) : Except String SendOutcome :=
  if env.vscodeDefined = false then
    if env.ideStorage = some "jetbrains" then
      if env.postIntellijMessageDefined = false then
        Except.error "postIntellijMessage is undefined"
      else
        Except.ok (SendOutcome.sentIntellij messageType data (messageId.getD fresh))
    else
      Except.ok SendOutcome.droppedNoVscode
  else
    Except.ok (SendOutcome.sentVscode
      { messageId := messageId.getD fresh, messageType := messageType, data := data })

/-- Global trace of one `postToIde` call together with all retries it
schedules: attempt numbers in order, the backoff delays scheduled (in
milliseconds, as passed to `setTimeout`), the outcome of the attempt that
did not throw (if any), and whether the final `console.error` diagnostic
("Max attempts reached") ran. -/
structure SendTrace where
  attempts : List Nat
  delays : List Nat
  sent : Option SendOutcome
  maxAttemptsLogged : Bool
deriving Repr, DecidableEq

/-- The retrying dispatcher `postToIde(messageType, data, messageId?, attempt = 0)`.
The environment is re-read on every attempt (`envAt`), and each attempt may
mint its own uuid (`freshAt`). The `try`/`catch` appears as the match on
`_postToIde`: a throw lands in the catch branch, which either schedules the
retry (modelled by the recursive call, whose trace is appended) or logs the
final diagnostic. The propagated-error case of the recursive call is dead
code: the dispatcher is proved below to always return `Except.ok`. -/
def postToIde (envAt : Nat → Env) (messageType : String) (data : JVal)
    (messageId : Option String) (freshAt : Nat → String) (attempt : Nat) :
    Except String SendTrace :=
  match _postToIde (envAt attempt) messageType data messageId (freshAt attempt) with
  | Except.ok o => Except.ok ⟨[attempt], [], some o, false⟩
  | Except.error _ =>
    if h : attempt < 5 then
      match postToIde envAt messageType data messageId freshAt (attempt + 1) with
      | Except.ok rest =>
          Except.ok ⟨attempt :: rest.attempts, 2 ^ attempt * 1000 :: rest.delays,
            rest.sent, rest.maxAttemptsLogged⟩
      | Except.error e => Except.error e
    else
      Except.ok ⟨[attempt], [], none, true⟩
termination_by 5 - attempt
decreasing_by omega

/-- The reverse-channel responder `respondToIde(messageType, data, messageId)`:
a direct call to the raw transport selector with the host-supplied
correlation identifier, outside any `try`/`catch`. -/
def respondToIde (env : Env) (messageType : String) (data : JVal)
    (messageId : String) (fresh : String) : Except String SendOutcome :=
  _postToIde env messageType data (some messageId) fresh

/-- State of the listener registered by `ideRequest`: whether the handler is
still attached (`window.addEventListener` / `removeEventListener`) and the
values `resolve` has been called with, in order. -/
structure UnaryState where
  listening : Bool
  resolutions : List JVal
deriving Repr, DecidableEq

/-- Listener state just after `ideRequest` registers its handler. -/
def initUnary : UnaryState := ⟨true, []⟩

/-- The inbound handler of `ideRequest`: a detached listener sees nothing;
an attached one compares `event.data.messageId` with the call's identifier
and, on a match, removes itself and resolves with `event.data.data`. The
operation name `messageType` is never inspected. -/
def unaryHandler (messageId : String) (st : UnaryState) (ev : Message) : UnaryState :=
  if st.listening then
    if ev.messageId = messageId then
      { listening := false, resolutions := st.resolutions ++ [ev.data] }
    else st
  else st

/-- Mutable state of one `ideStreamRequest` generator: the accumulation
buffer, the consumed-offset cursor `index`, the `done` flag, the terminal
`returnVal`, whether the inbound handler is still attached, and the
correlation identifiers of the `"abort"` envelopes sent so far (the
cancellation listener posts one per firing). -/
structure StreamState where
  buffer : List Char
  index : Nat
  done : Bool
  returnVal : Option JVal
  listening : Bool
  aborts : List String
deriving Repr, DecidableEq

/-- Generator state right after `ideStreamRequest` initialises its locals. -/
def initStream : StreamState := ⟨[], 0, false, none, true, []⟩

/-- The inbound handler of `ideStreamRequest` (lines 111-121): on a matching
identifier, a truthy `done` detaches the handler, sets the flag and stores
the whole payload as the return value; otherwise the fragment's `content`
is appended to the buffer. -/
def streamHandler (messageId : String) (st : StreamState) (ev : Message) : StreamState :=
  if st.listening then
    if ev.messageId = messageId then
      if ev.data.doneField then
        { st with listening := false, done := true, returnVal := some ev.data }
      else
        { st with buffer := st.buffer ++ ev.data.contentChars }
    else st
  else st

/-- An occurrence while the generator is suspended: an inbound window
message, or the firing of the caller's cancellation signal. -/
inductive StreamEvent where
  | inbound (m : Message)
  | cancel
deriving Repr, DecidableEq

/-- Effect of one event: inbound messages go to the handler; the abort
listener's body is `postToIde("abort", undefined, messageId)`, recorded by
its correlation identifier (it never touches the generator's locals). -/
def streamStep (messageId : String) (st : StreamState) : StreamEvent → StreamState
  | StreamEvent.inbound m => streamHandler messageId st m
  | StreamEvent.cancel => { st with aborts := st.aborts ++ [messageId] }

/-- One poll of the loop body: if the buffer has grown past the cursor,
slice off the new part, advance the cursor, and yield the chunk. -/
def pollStep (st : StreamState) : StreamState × List (List Char) :=
  if st.index < st.buffer.length then
    ({ st with index := st.buffer.length }, [st.buffer.drop st.index])
  else (st, [])

/-- Result of running the generator against a schedule: the chunks yielded in
order, the final state (whose `returnVal` is the generator's return value),
and whether the loop exited (`done` observed) or the schedule ran out with
the loop still polling. -/
structure RunResult where
  yields : List (List Char)
  state : StreamState
  terminated : Bool
deriving Repr, DecidableEq

/-- The code after the loop (lines 137-141): flush any unconsumed tail of the
buffer as one final chunk, then return. -/
def finishRun (st : StreamState) (acc : List (List Char)) : RunResult :=
  if st.index < st.buffer.length then
    ⟨acc ++ [st.buffer.drop st.index], { st with index := st.buffer.length }, true⟩
  else ⟨acc, st, true⟩

/-- The polling loop (lines 128-135) run against a schedule of event batches:
while `done` is unset, poll once, then sleep, during which the next batch
is delivered to the handler; when `done` is observed the final flush runs.
An exhausted schedule with `done` still unset leaves the loop running
(`terminated := false`). -/
def runLoop (messageId : String) :
    StreamState → List (List Char) → List (List StreamEvent) → RunResult
  | st, acc, [] => if st.done then finishRun st acc else ⟨acc, st, false⟩
  | st, acc, batch :: rest =>
    if st.done then finishRun st acc
    else runLoop messageId
      (batch.foldl (streamStep messageId) (pollStep st).1)
      (acc ++ (pollStep st).2) rest

/-- `ideStreamRequest` as observed by its consumer: the generator body starts
from fresh locals and runs the polling loop against the schedule of events
that arrive while it is suspended. -/
def ideStreamRequest (messageId : String) (sched : List (List StreamEvent)) : RunResult :=
  runLoop messageId initStream [] sched

/-- A fragment envelope of a stream: matching identifier, falsy `done`,
carrying `content`. -/
def fragMsg (messageId messageType : String) (content : List Char) : Message :=
  ⟨messageId, messageType, JVal.obj ⟨false, some content, none⟩⟩

/-- A completion envelope of a stream: matching identifier, truthy `done`,
carrying a terminal `value`. -/
def doneMsg (messageId messageType : String) (value : List Char) : Message :=
  ⟨messageId, messageType, JVal.obj ⟨true, none, some value⟩⟩

/-- Events admissible before the completion envelope: a cancellation firing,
or an inbound fragment of this stream (matching identifier, falsy `done`). -/
def preOk (messageId : String) (e : StreamEvent) : Prop :=
  e = StreamEvent.cancel ∨
    ∃ m, e = StreamEvent.inbound m ∧ m.messageId = messageId ∧ m.data.doneField = false

/-- Characters an event contributes to the buffer. -/
def evContent : StreamEvent → List Char
  | StreamEvent.inbound m => m.data.contentChars
  | StreamEvent.cancel => []

/-- Abort identifiers an event contributes. -/
def evAbort (messageId : String) : StreamEvent → List String
  | StreamEvent.inbound _ => []
  | StreamEvent.cancel => [messageId]

/-- A detached unary listener receives no further events. -/
lemma unaryHandler_inert (messageId : String) :
    ∀ (evs : List Message) (st : UnaryState), st.listening = false →
      evs.foldl (unaryHandler messageId) st = st := by
  intro evs
  induction evs with
  | nil => intro st _; rfl
  | cons e evs ih =>
    intro st h
    have he : unaryHandler messageId st e = st := by simp [unaryHandler, h]
    rw [List.foldl_cons, he, ih st h]

/-- C2: issuing a unary call and delivering one inbound envelope with the
matching correlation identifier resolves the call exactly once with that
envelope's payload, and every later envelope (in particular one bearing the
same identifier) leaves the listener state untouched. -/
theorem ideRequest_resolves_once (messageId : String) (e1 : Message)
    (later : List Message) (h1 : e1.messageId = messageId) :
    (unaryHandler messageId initUnary e1).resolutions = [e1.data] ∧
    later.foldl (unaryHandler messageId) (unaryHandler messageId initUnary e1) =
      unaryHandler messageId initUnary e1 := by
  have hres : unaryHandler messageId initUnary e1 = ⟨false, [e1.data]⟩ := by
    simp [unaryHandler, initUnary, h1]
  rw [hres]
  exact ⟨rfl, unaryHandler_inert messageId later _ rfl⟩

/-- Witness for C2 at a concrete call and envelopes. -/
theorem ideRequest_resolves_once_witness :
    (unaryHandler "m1" initUnary ⟨"m1", "echo", JVal.str "hi".toList⟩).resolutions =
      [JVal.str "hi".toList] ∧
    [(⟨"m1", "echo", JVal.str "bye".toList⟩ : Message)].foldl (unaryHandler "m1")
        (unaryHandler "m1" initUnary ⟨"m1", "echo", JVal.str "hi".toList⟩) =
      unaryHandler "m1" initUnary ⟨"m1", "echo", JVal.str "hi".toList⟩ :=
  ideRequest_resolves_once "m1" ⟨"m1", "echo", JVal.str "hi".toList⟩
    [⟨"m1", "echo", JVal.str "bye".toList⟩] rfl

/-- C7: while the listener is attached, an inbound envelope resolves the
pending unary call if and only if its correlation identifier equals the
call's identifier, and the operation name is never consulted. -/
theorem unaryHandler_match_iff (messageId : String) (st : UnaryState)
    (hl : st.listening = true) (ev : Message) :
    (((unaryHandler messageId st ev).resolutions = st.resolutions ++ [ev.data] ∧
      (unaryHandler messageId st ev).listening = false) ↔ ev.messageId = messageId) ∧
    (∀ k : String, unaryHandler messageId st { ev with messageType := k } =
      unaryHandler messageId st ev) := by
  constructor
  · constructor
    · rintro ⟨-, hlst⟩
      by_contra hne
      have hs : unaryHandler messageId st ev = st := by simp [unaryHandler, hl, hne]
      rw [hs, hl] at hlst
      exact Bool.noConfusion hlst
    · intro h
      simp [unaryHandler, hl, h]
  · intro k
    simp [unaryHandler]

/-- Witness for C7 at a concrete pending call. -/
theorem unaryHandler_match_iff_witness :
    ((unaryHandler "m2" ⟨true, []⟩ ⟨"m2", "resp", JVal.str "x".toList⟩).resolutions =
        [] ++ [JVal.str "x".toList] ∧
      (unaryHandler "m2" ⟨true, []⟩ ⟨"m2", "resp", JVal.str "x".toList⟩).listening = false) ∧
    unaryHandler "m2" ⟨true, []⟩ ⟨"m2", "other", JVal.str "x".toList⟩ =
      unaryHandler "m2" ⟨true, []⟩ ⟨"m2", "resp", JVal.str "x".toList⟩ := by
  have h := unaryHandler_match_iff "m2" ⟨true, []⟩ rfl ⟨"m2", "resp", JVal.str "x".toList⟩
  exact ⟨h.1.mpr rfl, h.2 "other"⟩

/-- C3: a send whose transport throws on attempts 0 through 3 and succeeds on
attempt 4 schedules exactly four retry delays before the successful fifth
attempt, namely 2^n seconds for failed attempt n — 1s, 2s, 4s, 8s in that
order (recorded in the milliseconds handed to `setTimeout`). -/
theorem postToIde_backoff_schedule (envAt : Nat → Env) (messageType : String)
    (data : JVal) (messageId : Option String) (freshAt : Nat → String)
    (hfail : ∀ n, n < 4 →
      ∃ e, _postToIde (envAt n) messageType data messageId (freshAt n) = Except.error e)
    (o : SendOutcome)
    (hok : _postToIde (envAt 4) messageType data messageId (freshAt 4) = Except.ok o) :
    postToIde envAt messageType data messageId freshAt 0 =
      Except.ok ⟨[0, 1, 2, 3, 4], [1 * 1000, 2 * 1000, 4 * 1000, 8 * 1000], some o, false⟩ := by
  obtain ⟨e0, h0⟩ := hfail 0 (by omega)
  obtain ⟨e1, h1⟩ := hfail 1 (by omega)
  obtain ⟨e2, h2⟩ := hfail 2 (by omega)
  obtain ⟨e3, h3⟩ := hfail 3 (by omega)
  have H4 : postToIde envAt messageType data messageId freshAt 4 =
      Except.ok ⟨[4], [], some o, false⟩ := by
    rw [postToIde, hok]
  have H3 : postToIde envAt messageType data messageId freshAt 3 =
      Except.ok ⟨[3, 4], [8 * 1000], some o, false⟩ := by
    rw [postToIde, h3]
    simp [H4]
  have H2 : postToIde envAt messageType data messageId freshAt 2 =
      Except.ok ⟨[2, 3, 4], [4 * 1000, 8 * 1000], some o, false⟩ := by
    rw [postToIde, h2]
    simp [H3]
  have H1 : postToIde envAt messageType data messageId freshAt 1 =
      Except.ok ⟨[1, 2, 3, 4], [2 * 1000, 4 * 1000, 8 * 1000], some o, false⟩ := by
    rw [postToIde, h1]
    simp [H2]
  rw [postToIde, h0]
  simp [H1]

/-- Witness for C3: the environment throws (JetBrains marker, no bridge) on
attempts 0-3 and the `vscode` handle is back for attempt 4. -/
theorem postToIde_backoff_schedule_witness :
    postToIde (fun n => if n < 4 then ⟨false, some "jetbrains", false⟩ else ⟨true, none, false⟩)
        "errorPopup" JVal.undef none (fun _ => "u0") 0 =
      Except.ok ⟨[0, 1, 2, 3, 4], [1 * 1000, 2 * 1000, 4 * 1000, 8 * 1000],
        some (SendOutcome.sentVscode ⟨"u0", "errorPopup", JVal.undef⟩), false⟩ :=
  postToIde_backoff_schedule _ "errorPopup" JVal.undef none (fun _ => "u0")
    (fun n hn => ⟨"postIntellijMessage is undefined", by simp [_postToIde, hn]⟩)
    (SendOutcome.sentVscode ⟨"u0", "errorPopup", JVal.undef⟩) (by simp [_postToIde])

/-- C4 (counterexample): with a transport that throws on every attempt, the
dispatcher makes six attempts (numbered 0 through 5), not five — `attempt < 5`
still schedules a retry after the failed attempt numbered 4. -/
theorem postToIde_six_attempts_counterexample :
    postToIde (fun _ => ⟨false, some "jetbrains", false⟩) "logDevData" JVal.undef none
        (fun _ => "u1") 0 =
      Except.ok ⟨[0, 1, 2, 3, 4, 5], [1000, 2000, 4000, 8000, 16000], none, true⟩ ∧
    ([0, 1, 2, 3, 4, 5] : List Nat).length ≠ 5 := by
  constructor
  · simp [postToIde, _postToIde]
  · decide

/-- C4 (amended): a send whose transport throws on every attempt makes exactly
six attempts, numbered 0 through 5, with the five backoff delays 1s, 2s, 4s,
8s, 16s; after the failed attempt numbered 5 nothing further is scheduled,
only the "Max attempts reached" diagnostic runs, and no exception escapes to
the caller (the dispatcher returns `Except.ok`). -/
theorem postToIde_exhaustion (envAt : Nat → Env) (messageType : String)
    (data : JVal) (messageId : Option String) (freshAt : Nat → String)
    (hfail : ∀ n,
      ∃ e, _postToIde (envAt n) messageType data messageId (freshAt n) = Except.error e) :
    postToIde envAt messageType data messageId freshAt 0 =
      Except.ok ⟨[0, 1, 2, 3, 4, 5],
        [1 * 1000, 2 * 1000, 4 * 1000, 8 * 1000, 16 * 1000], none, true⟩ := by
  obtain ⟨e0, h0⟩ := hfail 0
  obtain ⟨e1, h1⟩ := hfail 1
  obtain ⟨e2, h2⟩ := hfail 2
  obtain ⟨e3, h3⟩ := hfail 3
  obtain ⟨e4, h4⟩ := hfail 4
  obtain ⟨e5, h5⟩ := hfail 5
  have H5 : postToIde envAt messageType data messageId freshAt 5 =
      Except.ok ⟨[5], [], none, true⟩ := by
    rw [postToIde, h5]
    simp
  have H4 : postToIde envAt messageType data messageId freshAt 4 =
      Except.ok ⟨[4, 5], [16 * 1000], none, true⟩ := by
    rw [postToIde, h4]
    simp [H5]
  have H3 : postToIde envAt messageType data messageId freshAt 3 =
      Except.ok ⟨[3, 4, 5], [8 * 1000, 16 * 1000], none, true⟩ := by
    rw [postToIde, h3]
    simp [H4]
  have H2 : postToIde envAt messageType data messageId freshAt 2 =
      Except.ok ⟨[2, 3, 4, 5], [4 * 1000, 8 * 1000, 16 * 1000], none, true⟩ := by
    rw [postToIde, h2]
    simp [H3]
  have H1 : postToIde envAt messageType data messageId freshAt 1 =
      Except.ok ⟨[1, 2, 3, 4, 5], [2 * 1000, 4 * 1000, 8 * 1000, 16 * 1000], none, true⟩ := by
    rw [postToIde, h1]
    simp [H2]
  rw [postToIde, h0]
  simp [H1]

/-- Witness for the amended C4 at a concrete always-throwing environment. -/
theorem postToIde_exhaustion_witness :
    postToIde (fun _ => ⟨false, some "jetbrains", false⟩) "logDevData" JVal.undef none
        (fun _ => "u1") 0 =
      Except.ok ⟨[0, 1, 2, 3, 4, 5],
        [1 * 1000, 2 * 1000, 4 * 1000, 8 * 1000, 16 * 1000], none, true⟩ :=
  postToIde_exhaustion _ "logDevData" JVal.undef none (fun _ => "u1")
    (fun _ => ⟨"postIntellijMessage is undefined", rfl⟩)

/-- C5 (counterexample): with no `vscode` handle and no JetBrains marker, the
transport selector does not raise at all — it logs and returns normally
(`Except.ok` with the silently-dropped outcome), so no retry is driven: the
dispatcher records a single non-throwing attempt and no delays. -/
theorem transport_selector_counterexample :
    _postToIde ⟨false, none, false⟩ "getOpenFiles" JVal.undef none "u2" =
      Except.ok SendOutcome.droppedNoVscode ∧
    (Except.ok SendOutcome.droppedNoVscode : Except String SendOutcome) ≠
      Except.error "postIntellijMessage is undefined" ∧
    postToIde (fun _ => ⟨false, none, false⟩) "getOpenFiles" JVal.undef none
        (fun _ => "u2") 0 =
      Except.ok ⟨[0], [], some SendOutcome.droppedNoVscode, false⟩ := by
  refine ⟨rfl, fun h => Except.noConfusion h, ?_⟩
  simp [postToIde, _postToIde]

/-- C5 (amended): when the `vscode` handle is absent, the transport selector
raises synchronously only in the branch where the environment marker is
`"jetbrains"` and the bridge function is missing; in every other no-`vscode`
environment it logs and returns silently with no envelope sent and no error,
so the dispatcher sees a non-throwing attempt and schedules no retry. -/
theorem transport_selector_unavailable (messageType : String) (data : JVal)
    (messageId : Option String) (fresh : String) :
    (_postToIde ⟨false, some "jetbrains", false⟩ messageType data messageId fresh =
      Except.error "postIntellijMessage is undefined") ∧
    (∀ stor : Option String, stor ≠ some "jetbrains" → ∀ br : Bool,
      _postToIde ⟨false, stor, br⟩ messageType data messageId fresh =
        Except.ok SendOutcome.droppedNoVscode ∧
      postToIde (fun _ => ⟨false, stor, br⟩) messageType data messageId
          (fun _ => fresh) 0 =
        Except.ok ⟨[0], [], some SendOutcome.droppedNoVscode, false⟩) := by
  refine ⟨rfl, ?_⟩
  intro stor hst br
  have hp : _postToIde ⟨false, stor, br⟩ messageType data messageId fresh =
      Except.ok SendOutcome.droppedNoVscode := by
    simp [_postToIde, hst]
  refine ⟨hp, ?_⟩
  rw [postToIde]
  simp [hp]

/-- Witness for the amended C5 with an empty (browser-like) environment. -/
theorem transport_selector_unavailable_witness :
    _postToIde ⟨false, none, false⟩ "addOpenAIKey" JVal.undef none "u3" =
      Except.ok SendOutcome.droppedNoVscode ∧
    postToIde (fun _ => ⟨false, none, false⟩) "addOpenAIKey" JVal.undef none
        (fun _ => "u3") 0 =
      Except.ok ⟨[0], [], some SendOutcome.droppedNoVscode, false⟩ :=
  (transport_selector_unavailable "addOpenAIKey" JVal.undef none "u3").2 none
    (by decide) false

/-- C10: the reverse-channel reply goes through the raw transport selector
with the host-supplied correlation identifier: on a reachable `vscode`
channel exactly one envelope is posted and nothing is retried, and a
synchronous transport throw (JetBrains marker set, bridge absent) propagates
to the caller of `respondToIde` as `Except.error` — unlike the dispatcher,
which on the very same environment catches the throw and schedules its full
retry cascade. -/
theorem respondToIde_direct (messageType : String) (data : JVal)
    (messageId : String) (fresh : String) :
    (∀ (stor : Option String) (br : Bool),
      respondToIde ⟨true, stor, br⟩ messageType data messageId fresh =
        Except.ok (SendOutcome.sentVscode ⟨messageId, messageType, data⟩)) ∧
    respondToIde ⟨false, some "jetbrains", false⟩ messageType data messageId fresh =
      Except.error "postIntellijMessage is undefined" ∧
    postToIde (fun _ => ⟨false, some "jetbrains", false⟩) messageType data
        (some messageId) (fun _ => fresh) 0 =
      Except.ok ⟨[0, 1, 2, 3, 4, 5], [1000, 2000, 4000, 8000, 16000], none, true⟩ := by
  refine ⟨fun stor br => rfl, rfl, ?_⟩
  simp [postToIde, _postToIde]

/-- A matching fragment envelope appends its content to the buffer. -/
lemma streamHandler_frag (messageId : String) (st : StreamState) (m : Message)
    (hl : st.listening = true) (hid : m.messageId = messageId)
    (hdone : m.data.doneField = false) :
    streamHandler messageId st m = { st with buffer := st.buffer ++ m.data.contentChars } := by
  simp [streamHandler, hl, hid, hdone]

/-- A matching completion envelope detaches the handler, sets the flag and
stores the whole payload. -/
lemma streamHandler_done (messageId : String) (st : StreamState) (m : Message)
    (hl : st.listening = true) (hid : m.messageId = messageId)
    (hdone : m.data.doneField = true) :
    streamHandler messageId st m =
      { st with listening := false, done := true, returnVal := some m.data } := by
  simp [streamHandler, hl, hid, hdone]

/-- Folding a batch of fragment/cancel events extends the buffer by the
fragment contents in order and the abort list by one identifier per
cancellation, and touches nothing else. -/
lemma foldl_preOk (messageId : String) :
    ∀ (evs : List StreamEvent) (st : StreamState),
      (∀ e ∈ evs, preOk messageId e) → st.listening = true →
      evs.foldl (streamStep messageId) st =
        { st with buffer := st.buffer ++ (evs.map evContent).flatten,
                  aborts := st.aborts ++ (evs.map (evAbort messageId)).flatten } := by
  intro evs
  induction evs with
  | nil =>
    intro st _ _
    simp
  | cons e evs ih =>
    intro st hpre hl
    rcases hpre e (List.mem_cons_self e evs) with hc | ⟨m, hm, hid, hdone⟩
    · subst hc
      rw [List.foldl_cons,
        show streamStep messageId st StreamEvent.cancel =
          { st with aborts := st.aborts ++ [messageId] } from rfl,
        ih { st with aborts := st.aborts ++ [messageId] }
          (fun x hx => hpre x (List.mem_cons_of_mem _ hx)) hl]
      cases st
      simp [evContent, evAbort, List.append_assoc]
    · subst hm
      rw [List.foldl_cons,
        show streamStep messageId st (StreamEvent.inbound m) = streamHandler messageId st m
          from rfl,
        streamHandler_frag messageId st m hl hid hdone,
        ih { st with buffer := st.buffer ++ m.data.contentChars }
          (fun x hx => hpre x (List.mem_cons_of_mem _ hx)) hl]
      cases st
      simp [evContent, evAbort, List.append_assoc]

/-- With the cursor in bounds, a poll advances the cursor to the end of the
buffer and the flattened yield is exactly the unconsumed slice. -/
lemma pollStep_state (st : StreamState) (h : st.index ≤ st.buffer.length) :
    (pollStep st).1 = { st with index := st.buffer.length } := by
  unfold pollStep
  split
  · rfl
  · rename_i hlt
    have hge : st.index = st.buffer.length := le_antisymm h (not_lt.mp hlt)
    show st = { st with index := st.buffer.length }
    rw [← hge]

/-- Flattened yield of one poll: the unconsumed slice of the buffer. -/
lemma pollStep_flatten (st : StreamState) (h : st.index ≤ st.buffer.length) :
    ((pollStep st).2).flatten = st.buffer.drop st.index := by
  unfold pollStep
  split
  · simp
  · rename_i hlt
    have hge : st.buffer.length ≤ st.index := not_lt.mp hlt
    simp [List.drop_eq_nil_iff.mpr hge]

/-- A poll never changes the buffer, flags, return value or abort list. -/
lemma pollStep_fields (st : StreamState) :
    (pollStep st).1.buffer = st.buffer ∧ (pollStep st).1.done = st.done ∧
    (pollStep st).1.listening = st.listening ∧ (pollStep st).1.aborts = st.aborts ∧
    (pollStep st).1.returnVal = st.returnVal := by
  unfold pollStep
  split <;> simp

/-- A poll never yields an empty chunk. -/
lemma pollStep_chunks (st : StreamState) : ∀ c ∈ (pollStep st).2, c ≠ [] := by
  unfold pollStep
  split
  · rename_i hlt
    intro c hc
    simp only [List.mem_singleton] at hc
    subst hc
    intro hnil
    have := List.drop_eq_nil_iff.mp hnil
    omega
  · intro c hc
    simp at hc

/-- The final flush turns the yields into exactly the whole buffer. -/
lemma finishRun_flatten (st : StreamState) (acc : List (List Char))
    (h : st.index ≤ st.buffer.length) (hacc : acc.flatten = st.buffer.take st.index) :
    (finishRun st acc).yields.flatten = st.buffer := by
  unfold finishRun
  split
  · simp [hacc, List.take_append_drop]
  · rename_i hlt
    have hge : st.index = st.buffer.length := le_antisymm h (not_lt.mp hlt)
    simp [hacc, hge, List.take_length]

/-- The final flush reports termination and preserves the other fields. -/
lemma finishRun_fields (st : StreamState) (acc : List (List Char)) :
    (finishRun st acc).state.returnVal = st.returnVal ∧
    (finishRun st acc).state.aborts = st.aborts ∧
    (finishRun st acc).state.done = st.done ∧
    (finishRun st acc).terminated = true := by
  unfold finishRun
  split <;> simp

/-- The final flush never emits an empty chunk. -/
lemma finishRun_chunks (st : StreamState) (acc : List (List Char))
    (hacc : ∀ c ∈ acc, c ≠ []) : ∀ c ∈ (finishRun st acc).yields, c ≠ [] := by
  unfold finishRun
  split
  · rename_i hlt
    intro c hc
    rcases List.mem_append.mp hc with h1 | h2
    · exact hacc c h1
    · simp only [List.mem_singleton] at h2
      subst h2
      intro hnil
      have := List.drop_eq_nil_iff.mp hnil
      omega
  · exact hacc

/-- Once the done flag is set, the loop exits immediately into the final
flush, whatever events are still scheduled. -/
lemma runLoop_done (messageId : String) (st : StreamState) (acc : List (List Char))
    (h : st.done = true) :
    ∀ sched, runLoop messageId st acc sched = finishRun st acc := by
  intro sched
  cases sched <;> simp [runLoop, h]

/-- Inbound events contribute no abort identifiers. -/
lemma evAbort_inbound (messageId : String) (ms : List Message) :
    ((ms.map StreamEvent.inbound).map (evAbort messageId)).flatten = [] := by
  induction ms with
  | nil => rfl
  | cons m ms ih => simpa [evAbort] using ih

/-- The contents contributed by inbound events are their payload contents. -/
lemma evContent_inbound (ms : List Message) :
    ((ms.map StreamEvent.inbound).map evContent).flatten =
      (ms.map (fun m => m.data.contentChars)).flatten := by
  induction ms with
  | nil => rfl
  | cons m ms ih => simp only [List.map_cons, List.flatten_cons, evContent, ih]

/-- Loop invariant, completing case: against a schedule whose events are
fragments of this stream and cancellations followed by one completion
envelope, the loop terminates, the concatenated yields are the initial
buffer plus all fragment contents in arrival order, the return value is the
completion payload, and the abort list grows by one identifier per
cancellation. -/
lemma runLoop_complete (messageId : String) (dmsg : Message)
    (hid : dmsg.messageId = messageId) (hdone : dmsg.data.doneField = true) :
    ∀ (sched : List (List StreamEvent)) (evs : List StreamEvent)
      (st : StreamState) (acc : List (List Char)),
      sched.flatten = evs ++ [StreamEvent.inbound dmsg] →
      (∀ e ∈ evs, preOk messageId e) →
      st.done = false → st.listening = true → st.index ≤ st.buffer.length →
      acc.flatten = st.buffer.take st.index →
      (runLoop messageId st acc sched).terminated = true ∧
      (runLoop messageId st acc sched).yields.flatten =
        st.buffer ++ (evs.map evContent).flatten ∧
      (runLoop messageId st acc sched).state.returnVal = some dmsg.data ∧
      (runLoop messageId st acc sched).state.aborts =
        st.aborts ++ (evs.map (evAbort messageId)).flatten := by
  intro sched
  induction sched with
  | nil =>
    intro evs st acc hflat hpre hd hl hidx hacc
    exfalso
    have hcontra : ([] : List StreamEvent) = evs ++ [StreamEvent.inbound dmsg] := by
      simpa using hflat
    cases evs <;> simp at hcontra
  | cons batch rest ih =>
    intro evs st acc hflat hpre hd hl hidx hacc
    have hflat2 : batch ++ rest.flatten = evs ++ [StreamEvent.inbound dmsg] := by
      simpa using hflat
    have hrun : runLoop messageId st acc (batch :: rest) =
        runLoop messageId (batch.foldl (streamStep messageId) (pollStep st).1)
          (acc ++ (pollStep st).2) rest := by
      simp [runLoop, hd]
    rw [hrun, pollStep_state st hidx]
    have hacc2 : (acc ++ (pollStep st).2).flatten = st.buffer := by
      rw [List.flatten_append, hacc, pollStep_flatten st hidx, List.take_append_drop]
    rcases List.eq_nil_or_concat rest.flatten with hre | ⟨init, lst, hre⟩
    · -- the completion envelope closes this very batch
      rw [hre, List.append_nil] at hflat2
      have hstate : batch.foldl (streamStep messageId) { st with index := st.buffer.length } =
          { st with index := st.buffer.length,
                    buffer := st.buffer ++ (evs.map evContent).flatten,
                    aborts := st.aborts ++ (evs.map (evAbort messageId)).flatten,
                    listening := false, done := true, returnVal := some dmsg.data } := by
        rw [hflat2, List.foldl_append,
          foldl_preOk messageId evs { st with index := st.buffer.length } hpre hl,
          List.foldl_cons, List.foldl_nil,
          show ∀ s, streamStep messageId s (StreamEvent.inbound dmsg) =
            streamHandler messageId s dmsg from fun s => rfl]
        simp [streamHandler, hl, hid, hdone]
      rw [hstate, runLoop_done messageId _ _ rfl rest]
      have hidx3 :
          ({ st with index := st.buffer.length,
                     buffer := st.buffer ++ (evs.map evContent).flatten,
                     aborts := st.aborts ++ (evs.map (evAbort messageId)).flatten,
                     listening := false, done := true,
                     returnVal := some dmsg.data } : StreamState).index ≤
          ({ st with index := st.buffer.length,
                     buffer := st.buffer ++ (evs.map evContent).flatten,
                     aborts := st.aborts ++ (evs.map (evAbort messageId)).flatten,
                     listening := false, done := true,
                     returnVal := some dmsg.data } : StreamState).buffer.length := by
        simp
      have hacc3 : (acc ++ (pollStep st).2).flatten =
          (st.buffer ++ (evs.map evContent).flatten).take st.buffer.length := by
        rw [hacc2, List.take_left]
      refine ⟨(finishRun_fields _ _).2.2.2, ?_, ?_, ?_⟩
      · rw [finishRun_flatten _ _ hidx3 hacc3]
      · rw [(finishRun_fields _ _).1]
      · rw [(finishRun_fields _ _).2.1]
    · -- the completion envelope is still in the remaining schedule
      rw [List.concat_eq_append] at hre
      rw [hre, ← List.append_assoc] at hflat2
      obtain ⟨hevs, hlst⟩ := List.append_inj' hflat2 rfl
      have hlst2 : lst = StreamEvent.inbound dmsg := by simpa using hlst
      have hpreB : ∀ e ∈ batch, preOk messageId e := by
        intro e he
        apply hpre
        rw [← hevs]
        exact List.mem_append_left _ he
      have hpreI : ∀ e ∈ init, preOk messageId e := by
        intro e he
        apply hpre
        rw [← hevs]
        exact List.mem_append_right _ he
      have hfold := foldl_preOk messageId batch { st with index := st.buffer.length } hpreB hl
      have hih := ih init
        (batch.foldl (streamStep messageId) { st with index := st.buffer.length })
        (acc ++ (pollStep st).2)
        (by rw [hre, hlst2]) hpreI
        (by rw [hfold]; exact hd) (by rw [hfold]; exact hl)
        (by rw [hfold]; simp)
        (by rw [hfold, hacc2]
            exact (List.take_left _ _).symm)
      obtain ⟨ht, hy, hr, hab⟩ := hih
      refine ⟨ht, ?_, hr, ?_⟩
      · rw [hy, hfold, ← hevs]
        show (st.buffer ++ (batch.map evContent).flatten) ++ (init.map evContent).flatten = _
        simp [List.map_append, List.flatten_append, List.append_assoc]
      · rw [hab, hfold, ← hevs]
        show (st.aborts ++ (batch.map (evAbort messageId)).flatten) ++
          (init.map (evAbort messageId)).flatten = _
        simp [List.map_append, List.flatten_append, List.append_assoc]

/-- Loop invariant, non-completing case: against a schedule of fragments and
cancellations with no completion envelope, the loop never exits — the
schedule runs out with the done flag still unset — while the abort list
still grows by one identifier per cancellation. -/
lemma runLoop_nocomplete (messageId : String) :
    ∀ (sched : List (List StreamEvent)) (evs : List StreamEvent)
      (st : StreamState) (acc : List (List Char)),
      sched.flatten = evs →
      (∀ e ∈ evs, preOk messageId e) →
      st.done = false → st.listening = true →
      (runLoop messageId st acc sched).terminated = false ∧
      (runLoop messageId st acc sched).state.aborts =
        st.aborts ++ (evs.map (evAbort messageId)).flatten ∧
      (runLoop messageId st acc sched).state.done = false := by
  intro sched
  induction sched with
  | nil =>
    intro evs st acc hflat hpre hd hl
    have hevs : evs = [] := by simpa using hflat.symm
    subst hevs
    simp [runLoop, hd]
  | cons batch rest ih =>
    intro evs st acc hflat hpre hd hl
    have hflat2 : batch ++ rest.flatten = evs := by simpa using hflat
    have hrun : runLoop messageId st acc (batch :: rest) =
        runLoop messageId (batch.foldl (streamStep messageId) (pollStep st).1)
          (acc ++ (pollStep st).2) rest := by
      simp [runLoop, hd]
    rw [hrun]
    obtain ⟨hpb, hpd, hpl, hpa, hpr⟩ := pollStep_fields st
    have hpreB : ∀ e ∈ batch, preOk messageId e := by
      intro e he
      apply hpre
      rw [← hflat2]
      exact List.mem_append_left _ he
    have hpreR : ∀ e ∈ rest.flatten, preOk messageId e := by
      intro e he
      apply hpre
      rw [← hflat2]
      exact List.mem_append_right _ he
    have hfold := foldl_preOk messageId batch (pollStep st).1 hpreB (by rw [hpl]; exact hl)
    have hih := ih rest.flatten
      (batch.foldl (streamStep messageId) (pollStep st).1)
      (acc ++ (pollStep st).2) rfl hpreR
      (by rw [hfold]; show (pollStep st).1.done = false; rw [hpd]; exact hd)
      (by rw [hfold]; show (pollStep st).1.listening = true; rw [hpl]; exact hl)
    obtain ⟨ht, hab, hdn⟩ := hih
    refine ⟨ht, ?_, hdn⟩
    rw [hab, hfold, ← hflat2]
    show ((pollStep st).1.aborts ++ (batch.map (evAbort messageId)).flatten) ++
      (rest.flatten.map (evAbort messageId)).flatten = _
    rw [hpa]
    simp [List.map_append, List.flatten_append, List.append_assoc]

/-- No run of the polling loop ever yields an empty chunk. -/
lemma runLoop_chunks (messageId : String) :
    ∀ (sched : List (List StreamEvent)) (st : StreamState) (acc : List (List Char)),
      (∀ c ∈ acc, c ≠ []) → ∀ c ∈ (runLoop messageId st acc sched).yields, c ≠ [] := by
  intro sched
  induction sched with
  | nil =>
    intro st acc hacc
    by_cases hd : st.done = true
    · show ∀ c ∈ (runLoop messageId st acc []).yields, c ≠ []
      rw [show runLoop messageId st acc [] = finishRun st acc by simp [runLoop, hd]]
      exact finishRun_chunks st acc hacc
    · rw [show runLoop messageId st acc [] = ⟨acc, st, false⟩ by
        simp [runLoop, Bool.of_not_eq_true hd]]
      exact hacc
  | cons batch rest ih =>
    intro st acc hacc
    by_cases hd : st.done = true
    · rw [show runLoop messageId st acc (batch :: rest) = finishRun st acc by
        simp [runLoop, hd]]
      exact finishRun_chunks st acc hacc
    · rw [show runLoop messageId st acc (batch :: rest) =
          runLoop messageId (batch.foldl (streamStep messageId) (pollStep st).1)
            (acc ++ (pollStep st).2) rest by
        simp [runLoop, Bool.of_not_eq_true hd]]
      apply ih
      intro c hc
      rcases List.mem_append.mp hc with h1 | h2
      · exact hacc c h1
      · exact pollStep_chunks st c h2

/-- C1: for every sequence of inbound fragment envelopes followed by one
completion envelope, all carrying the stream's correlation identifier and
delivered in arbitrary batches in that order, the generator terminates, the
concatenation of its yielded chunks equals the concatenation of the fragment
payloads' content fields in arrival order, and the value returned after the
sequence is exhausted is the completion envelope's payload. -/
theorem ideStreamRequest_concat_eq (messageId : String) (frags : List Message)
    (dmsg : Message) (sched : List (List StreamEvent))
    (hf : ∀ m ∈ frags, m.messageId = messageId ∧ m.data.doneField = false)
    (hid : dmsg.messageId = messageId) (hdone : dmsg.data.doneField = true)
    (hsched : sched.flatten = frags.map StreamEvent.inbound ++ [StreamEvent.inbound dmsg]) :
    (ideStreamRequest messageId sched).terminated = true ∧
    (ideStreamRequest messageId sched).yields.flatten =
      (frags.map (fun m => m.data.contentChars)).flatten ∧
    (ideStreamRequest messageId sched).state.returnVal = some dmsg.data := by
  have hpre : ∀ e ∈ frags.map StreamEvent.inbound, preOk messageId e := by
    intro e he
    rcases List.mem_map.mp he with ⟨m, hm, hme⟩
    exact Or.inr ⟨m, hme.symm, (hf m hm).1, (hf m hm).2⟩
  obtain ⟨ht, hy, hr, -⟩ := runLoop_complete messageId dmsg hid hdone sched
    (frags.map StreamEvent.inbound) initStream [] hsched hpre rfl rfl (Nat.le_refl 0) rfl
  refine ⟨ht, ?_, hr⟩
  simp only [ideStreamRequest]
  rw [hy]
  show ([] : List Char) ++ _ = _
  rw [List.nil_append, evContent_inbound]

/-- Witness for C1 on a concrete two-fragment stream. -/
theorem ideStreamRequest_concat_eq_witness :
    (ideStreamRequest "id4"
      [[StreamEvent.inbound (fragMsg "id4" "k" "he".toList)],
       [StreamEvent.inbound (fragMsg "id4" "k" "llo".toList)],
       [StreamEvent.inbound (doneMsg "id4" "k" "fin".toList)]]).terminated = true ∧
    (ideStreamRequest "id4"
      [[StreamEvent.inbound (fragMsg "id4" "k" "he".toList)],
       [StreamEvent.inbound (fragMsg "id4" "k" "llo".toList)],
       [StreamEvent.inbound (doneMsg "id4" "k" "fin".toList)]]).yields.flatten =
      ([fragMsg "id4" "k" "he".toList, fragMsg "id4" "k" "llo".toList].map
        (fun m => m.data.contentChars)).flatten ∧
    (ideStreamRequest "id4"
      [[StreamEvent.inbound (fragMsg "id4" "k" "he".toList)],
       [StreamEvent.inbound (fragMsg "id4" "k" "llo".toList)],
       [StreamEvent.inbound (doneMsg "id4" "k" "fin".toList)]]).state.returnVal =
      some (doneMsg "id4" "k" "fin".toList).data :=
  ideStreamRequest_concat_eq "id4"
    [fragMsg "id4" "k" "he".toList, fragMsg "id4" "k" "llo".toList]
    (doneMsg "id4" "k" "fin".toList)
    [[StreamEvent.inbound (fragMsg "id4" "k" "he".toList)],
     [StreamEvent.inbound (fragMsg "id4" "k" "llo".toList)],
     [StreamEvent.inbound (doneMsg "id4" "k" "fin".toList)]]
    (by decide) rfl rfl (by decide)

/-- C6: firing the cancellation signal before any completion envelope sends
exactly one abort notification carrying the stream's original correlation
identifier (via the dispatcher, as one `"abort"` envelope with that
identifier) and does not itself terminate the consumer's sequence: with no
completion the loop is still polling, and with a later completion the loop
ends only then, with yields and return value unaffected. -/
theorem ideStreamRequest_cancel_abort (messageId : String)
    (A B : List (List StreamEvent)) (frags1 frags2 : List Message) (dmsg : Message)
    (h1 : ∀ m ∈ frags1, m.messageId = messageId ∧ m.data.doneField = false)
    (h2 : ∀ m ∈ frags2, m.messageId = messageId ∧ m.data.doneField = false)
    (hA : A.flatten = frags1.map StreamEvent.inbound)
    (hB : B.flatten = frags2.map StreamEvent.inbound ++ [StreamEvent.inbound dmsg])
    (hid : dmsg.messageId = messageId) (hdone : dmsg.data.doneField = true) :
    (ideStreamRequest messageId (A ++ [[StreamEvent.cancel]])).terminated = false ∧
    (ideStreamRequest messageId (A ++ [[StreamEvent.cancel]])).state.aborts = [messageId] ∧
    (ideStreamRequest messageId (A ++ [[StreamEvent.cancel]] ++ B)).terminated = true ∧
    (ideStreamRequest messageId (A ++ [[StreamEvent.cancel]] ++ B)).state.aborts =
      [messageId] ∧
    (ideStreamRequest messageId (A ++ [[StreamEvent.cancel]] ++ B)).state.returnVal =
      some dmsg.data ∧
    (ideStreamRequest messageId (A ++ [[StreamEvent.cancel]] ++ B)).yields.flatten =
      ((frags1 ++ frags2).map (fun m => m.data.contentChars)).flatten ∧
    (∀ (stor : Option String) (br : Bool) (fresh : Nat → String),
      postToIde (fun _ => ⟨true, stor, br⟩) "abort" JVal.undef (some messageId) fresh 0 =
        Except.ok ⟨[0], [],
          some (SendOutcome.sentVscode ⟨messageId, "abort", JVal.undef⟩), false⟩) := by
  have hpre1 : ∀ e ∈ frags1.map StreamEvent.inbound, preOk messageId e := by
    intro e he
    rcases List.mem_map.mp he with ⟨m, hm, hme⟩
    exact Or.inr ⟨m, hme.symm, (h1 m hm).1, (h1 m hm).2⟩
  have hpre2 : ∀ e ∈ frags2.map StreamEvent.inbound, preOk messageId e := by
    intro e he
    rcases List.mem_map.mp he with ⟨m, hm, hme⟩
    exact Or.inr ⟨m, hme.symm, (h2 m hm).1, (h2 m hm).2⟩
  obtain ⟨ht1, hab1, -⟩ := runLoop_nocomplete messageId (A ++ [[StreamEvent.cancel]])
    (frags1.map StreamEvent.inbound ++ [StreamEvent.cancel]) initStream []
    (by rw [List.flatten_append, hA]; rfl)
    (by intro e he
        rcases List.mem_append.mp he with hm1 | hm2
        · exact hpre1 e hm1
        · simp only [List.mem_singleton] at hm2
          exact Or.inl hm2)
    rfl rfl
  obtain ⟨ht2, hy2, hr2, hab2⟩ := runLoop_complete messageId dmsg hid hdone
    (A ++ [[StreamEvent.cancel]] ++ B)
    (frags1.map StreamEvent.inbound ++ StreamEvent.cancel :: frags2.map StreamEvent.inbound)
    initStream []
    (by rw [List.flatten_append, List.flatten_append, hA, hB]
        simp [List.append_assoc])
    (by intro e he
        rcases List.mem_append.mp he with hm1 | hm2
        · exact hpre1 e hm1
        · rcases List.mem_cons.mp hm2 with hm3 | hm4
          · exact Or.inl hm3
          · exact hpre2 e hm4)
    rfl rfl (Nat.le_refl 0) rfl
  refine ⟨ht1, ?_, ht2, ?_, hr2, ?_, ?_⟩
  · simp only [ideStreamRequest]
    rw [hab1]
    show ([] : List String) ++ _ = _
    rw [List.nil_append, List.map_append, List.flatten_append, evAbort_inbound]
    rfl
  · simp only [ideStreamRequest]
    rw [hab2]
    show ([] : List String) ++ _ = _
    rw [List.nil_append, List.map_append, List.flatten_append, evAbort_inbound,
      List.nil_append, List.map_cons, List.flatten_cons, evAbort_inbound]
    rfl
  · simp only [ideStreamRequest]
    rw [hy2]
    show ([] : List Char) ++ _ = _
    rw [List.nil_append, List.map_append, List.flatten_append, evContent_inbound,
      List.map_cons, List.flatten_cons,
      show evContent StreamEvent.cancel = [] from rfl, List.nil_append,
      evContent_inbound, List.map_append, List.flatten_append]
  · intro stor br fresh
    simp [postToIde, _postToIde]

/-- Witness for C6 on a concrete one-fragment stream cancelled mid-flight. -/
theorem ideStreamRequest_cancel_abort_witness :
    (ideStreamRequest "id5"
      [[StreamEvent.inbound (fragMsg "id5" "k" "x".toList)],
       [StreamEvent.cancel]]).terminated = false ∧
    (ideStreamRequest "id5"
      [[StreamEvent.inbound (fragMsg "id5" "k" "x".toList)],
       [StreamEvent.cancel]]).state.aborts = ["id5"] ∧
    (ideStreamRequest "id5"
      ([[StreamEvent.inbound (fragMsg "id5" "k" "x".toList)]] ++ [[StreamEvent.cancel]] ++
        [[StreamEvent.inbound (doneMsg "id5" "k" "v".toList)]])).state.returnVal =
      some (doneMsg "id5" "k" "v".toList).data ∧
    postToIde (fun _ => ⟨true, none, false⟩) "abort" JVal.undef (some "id5")
        (fun _ => "f0") 0 =
      Except.ok ⟨[0], [],
        some (SendOutcome.sentVscode ⟨"id5", "abort", JVal.undef⟩), false⟩ := by
  have h := ideStreamRequest_cancel_abort "id5"
    [[StreamEvent.inbound (fragMsg "id5" "k" "x".toList)]]
    [[StreamEvent.inbound (doneMsg "id5" "k" "v".toList)]]
    [fragMsg "id5" "k" "x".toList] [] (doneMsg "id5" "k" "v".toList)
    (by decide) (by decide) rfl rfl rfl rfl
  exact ⟨h.1, h.2.1, h.2.2.2.2.1, h.2.2.2.2.2.2 none false (fun _ => "f0")⟩

/-- C8 (counterexample): in the scenario with fragments "a", "bc" and
completion payload with done flag set and value "done", the generator's
terminal value is the whole completion payload object, not the bare string
"done" the claim names. -/
theorem ideStreamRequest_scenario_counterexample :
    (ideStreamRequest "id7"
      [[StreamEvent.inbound (fragMsg "id7" "llmStreamChat" "a".toList)],
       [StreamEvent.inbound (fragMsg "id7" "llmStreamChat" "bc".toList)],
       [StreamEvent.inbound (doneMsg "id7" "llmStreamChat" "done".toList)]]).state.returnVal =
      some (JVal.obj ⟨true, none, some "done".toList⟩) ∧
    some (JVal.obj ⟨true, none, some "done".toList⟩) ≠ some (JVal.str "done".toList) := by
  constructor
  · decide
  · decide

/-- C8 (amended): in the scenario with fragments "a", "bc" and completion
payload with done flag set and value "done", the consumer observes exactly
the yields "a" then "bc", the sequence ends, and the terminal value is the
completion payload (whose value field is "done"). -/
theorem ideStreamRequest_scenario :
    ideStreamRequest "id7"
      [[StreamEvent.inbound (fragMsg "id7" "llmStreamChat" "a".toList)],
       [StreamEvent.inbound (fragMsg "id7" "llmStreamChat" "bc".toList)],
       [StreamEvent.inbound (doneMsg "id7" "llmStreamChat" "done".toList)]] =
      ⟨["a".toList, "bc".toList],
       ⟨"abc".toList, 3, true, some (JVal.obj ⟨true, none, some "done".toList⟩), false, []⟩,
       true⟩ := by decide

/-- C9: the generator never yields an empty chunk, whatever events arrive —
in particular no spurious empty yield when the buffer is fully consumed at
the moment completion arrives — and when the completion envelope arrives
with no preceding fragment the sequence yields zero chunks and returns the
terminal payload. -/
theorem ideStreamRequest_edge_semantics (messageId : String) (dmsg : Message)
    (hid : dmsg.messageId = messageId) (hdone : dmsg.data.doneField = true) :
    (∀ sched : List (List StreamEvent),
      ∀ c ∈ (ideStreamRequest messageId sched).yields, c ≠ []) ∧
    (∀ sched : List (List StreamEvent),
      sched.flatten = [StreamEvent.inbound dmsg] →
      (ideStreamRequest messageId sched).yields = [] ∧
      (ideStreamRequest messageId sched).terminated = true ∧
      (ideStreamRequest messageId sched).state.returnVal = some dmsg.data) := by
  have hchunks : ∀ sched : List (List StreamEvent),
      ∀ c ∈ (ideStreamRequest messageId sched).yields, c ≠ [] := by
    intro sched
    exact runLoop_chunks messageId sched initStream [] (by intro c hc; simp at hc)
  refine ⟨hchunks, ?_⟩
  intro sched hsched
  obtain ⟨ht, hy, hr, -⟩ := runLoop_complete messageId dmsg hid hdone sched [] initStream []
    (by simpa using hsched) (by intro e he; simp at he) rfl rfl (Nat.le_refl 0) rfl
  refine ⟨?_, ht, hr⟩
  have hflat : (ideStreamRequest messageId sched).yields.flatten = [] := by
    simp only [ideStreamRequest]
    rw [hy]
    rfl
  cases hys : (ideStreamRequest messageId sched).yields with
  | nil => rfl
  | cons c cs =>
    exfalso
    rw [hys] at hflat
    have hc : c = [] :=
      List.flatten_eq_nil_iff.mp hflat c (List.mem_cons_self c cs)
    have hne := hchunks sched c (by rw [hys]; exact List.mem_cons_self c cs)
    exact hne hc

/-- Witness for C9 on a concrete fragmentless stream. -/
theorem ideStreamRequest_edge_semantics_witness :
    (ideStreamRequest "id6" [[StreamEvent.inbound (doneMsg "id6" "k" "v".toList)]]).yields =
      [] ∧
    (ideStreamRequest "id6"
      [[StreamEvent.inbound (doneMsg "id6" "k" "v".toList)]]).terminated = true ∧
    (ideStreamRequest "id6"
      [[StreamEvent.inbound (doneMsg "id6" "k" "v".toList)]]).state.returnVal =
      some (doneMsg "id6" "k" "v".toList).data :=
  (ideStreamRequest_edge_semantics "id6" (doneMsg "id6" "k" "v".toList) rfl rfl).2
    [[StreamEvent.inbound (doneMsg "id6" "k" "v".toList)]] rfl
